import Mathlib

/-!
Shallow embedding of the duktape Rust binding layer (src/lib.rs, src/value.rs,
src/serialize.rs and the trampoline generator in duktape-macros/src/lib.rs).

The Duktape VM value stack is modelled as a list of values; engine numbers are
exact rationals (every finite IEEE-754 double is a rational, and the scalar
paths under verification perform no rounding beyond the clamping documented
for `duk_require_int` / `duk_require_uint`).  Engine-level errors
(`duk_require_*` throwing, fatal aborts, Rust panics via `.unwrap()` /
`.expect`) are modelled as `none` in the state-and-option monad `DukM`;
Rust-level `Result` errors are ordinary `Except` values.
-/

namespace Dukt

/-- A property key is a byte string (`duk_*_lstring` takes raw bytes). -/
abbrev PropKey := List ℕ

/-- Engine values, as used by the binding: `duk_push_boolean` /
`duk_push_int` / `duk_push_uint` / `duk_push_number` / `duk_push_lstring` /
`duk_push_object` / `duk_push_pointer` / `duk_push_null` /
`duk_push_undefined`.  Objects carry their property table. -/
inductive DukValue where
  | undefined : DukValue
  | nullv : DukValue
  | boolean (b : Bool) : DukValue
  | num (q : ℚ) : DukValue
  | str (s : String) : DukValue
  | obj (props : List (PropKey × DukValue)) : DukValue
  | pointer (p : ℕ) : DukValue

/-- The binding's `Context`: the VM value stack, plus the `Rc` strong-count
bookkeeping (address, strong count) used to model `std::rc::Rc`
(`into_raw` / `from_raw` / `increment_strong_count` / `drop`). -/
structure Ctx where
  stack : List DukValue
  rc : List (ℕ × ℕ)

/-- State-and-failure monad: `none` models an engine throw / fatal / panic. -/
def DukM (α : Type) : Type := Ctx → Option (α × Ctx)

instance : Monad DukM where
  pure a := fun c => some (a, c)
  bind m f := fun c =>
    match m c with
    | none => none
    | some (a, c') => f a c'

/-- Engine throw (`duk_require_*` failure, fatal handler, Rust panic). -/
def throwEngine : DukM α := fun _ => none

/-- Duktape index normalisation: non-negative indices are absolute from the
stack bottom, negative ones count from the top; out-of-range is invalid. -/
def normIdx (len : ℕ) (idx : ℤ) : Option ℕ :=
  if idx < 0 then
    if 0 ≤ (len : ℤ) + idx then some ((len : ℤ) + idx).toNat else none
  else
    if idx < (len : ℤ) then some idx.toNat else none

/-- Read the slot at a (possibly negative) index; invalid index throws. -/
def getSlot (idx : ℤ) : DukM DukValue := fun c =>
  match normIdx c.stack.length idx with
  | some j => some (c.stack.getD j .undefined, c)
  | none => none

/-- Overwrite the slot at an absolute position (internal helper for
`duk_put_prop`'s write-back of the mutated object). -/
def setSlot (j : ℕ) (v : DukValue) : DukM Unit := fun c =>
  some ((), { c with stack := c.stack.set j v })

/-- `duk_push_*`: append a value at the top of the stack. -/
def pushRaw (v : DukValue) : DukM Unit := fun c =>
  some ((), { c with stack := c.stack ++ [v] })

/-- `Context::stack_len` (`duk_get_top`). -/
def stackLen : DukM ℤ := fun c => some ((c.stack.length : ℤ), c)

/-- `Context::stack_top` (`duk_get_top_index` followed by
`try_into::<u32>().unwrap()`, which panics on an empty stack). -/
def stackTopIdx : DukM ℕ := fun c =>
  if c.stack.length = 0 then none else some (c.stack.length - 1, c)

/-- `Context::pop_it` (`duk_pop`; throws on an empty stack). -/
def popIt : DukM Unit := fun c =>
  if c.stack.isEmpty then none
  else some ((), { c with stack := c.stack.dropLast })

/-- `Context::pop_n` (`duk_pop_n`; throws if fewer than `n` entries). -/
def popN (n : ℤ) : DukM Unit := fun c =>
  if n < 0 ∨ (c.stack.length : ℤ) < n then none
  else some ((), { c with stack := c.stack.take (c.stack.length - n.toNat) })

/-- Truncation toward zero, as performed by duktape's number-to-integer
coercion in `duk_require_int` / `duk_require_uint`. -/
def ratTruncTZ (q : ℚ) : ℤ := if 0 ≤ q then ⌊q⌋ else ⌈q⌉

/-- Clamp an integer into `[lo, hi]`. -/
def clampI (lo hi z : ℤ) : ℤ := if z < lo then lo else if hi < z then hi else z

/-- `Context::get_bool` (`duk_require_boolean`): throws unless a boolean. -/
def requireBoolean (idx : ℤ) : DukM Bool := do
  match ← getSlot idx with
  | .boolean b => pure b
  | _ => throwEngine

/-- `Context::get_int` (`duk_require_int`): throws unless a number; the
number is truncated toward zero and clamped to the 32-bit signed range. -/
def requireInt (idx : ℤ) : DukM ℤ := do
  match ← getSlot idx with
  | .num q => pure (clampI (-(2 ^ 31)) (2 ^ 31 - 1) (ratTruncTZ q))
  | _ => throwEngine

/-- `Context::get_uint` (`duk_require_uint`): throws unless a number; the
number is truncated toward zero and clamped to the 32-bit unsigned range. -/
def requireUint (idx : ℤ) : DukM ℕ := do
  match ← getSlot idx with
  | .num q => pure (clampI 0 (2 ^ 32 - 1) (ratTruncTZ q)).toNat
  | _ => throwEngine

/-- `Context::get_number` (`duk_require_number`): throws unless a number. -/
def requireNumber (idx : ℤ) : DukM ℚ := do
  match ← getSlot idx with
  | .num q => pure q
  | _ => throwEngine

/-- `Context::get_string` (`duk_require_lstring`): throws unless a string. -/
def requireLString (idx : ℤ) : DukM String := do
  match ← getSlot idx with
  | .str s => pure s
  | _ => throwEngine

/-- `Context::get_object` (`duk_require_object`): throws unless an object. -/
def requireObject (idx : ℤ) : DukM Unit := do
  match ← getSlot idx with
  | .obj _ => pure ()
  | _ => throwEngine

/-- `Context::get_pointer` (`duk_require_pointer`): throws unless a pointer. -/
def requirePointer (idx : ℤ) : DukM ℕ := do
  match ← getSlot idx with
  | .pointer p => pure p
  | _ => throwEngine

/-- Replace-or-append in a property table. -/
def setAssoc (props : List (PropKey × DukValue)) (key : PropKey)
    (v : DukValue) : List (PropKey × DukValue) :=
  match props with
  | [] => [(key, v)]
  | (k', w) :: rest =>
    if k' = key then (key, v) :: rest else (k', w) :: setAssoc rest key v

/-- `Context::get_prop` / `get_prop_bytes` (`duk_get_prop_lstring`): on an
object base, push the property value and report `true` if present, push
`undefined` and report `false` otherwise; a `null`/`undefined` base or an
invalid index throws.  (Primitive bases coerce to wrapper objects carrying
none of the properties the binding uses, so they report `false` here.) -/
def getPropLString (idx : ℤ) (key : PropKey) : DukM Bool := do
  match ← getSlot idx with
  | .obj props =>
    match props.lookup key with
    | some w => do pushRaw w; pure true
    | none => do pushRaw .undefined; pure false
  | .nullv => throwEngine
  | .undefined => throwEngine
  | _ => do pushRaw .undefined; pure false

/-- `Context::put_prop_string` / `put_prop_bytes` (`duk_put_prop_lstring`):
take the value at the stack top, store it under `key` on the object at
`objIdx` (an index into the stack including the value), then pop the value;
throws when the target is not an object. -/
def putPropLString (objIdx : ℤ) (key : PropKey) : DukM Unit := fun c =>
  match c.stack.getLast? with
  | none => none
  | some v =>
    match normIdx c.stack.length objIdx with
    | none => none
    | some j =>
      match c.stack.getD j .undefined with
      | .obj props =>
        some ((), { c with stack := (c.stack.set j (.obj (setAssoc props key v))).dropLast })
      | _ => none

/-- `Context::push_object` (`duk_push_object`): push an empty object and
return its absolute index. -/
def pushObject : DukM ℕ := do
  pushRaw (.obj [])
  stackTopIdx

/-- `Context::is_null_or_undefined` (`duk_get_type_mask` against the
null/undefined masks; an invalid index has type NONE and reports `false`). -/
def isNullOrUndefined (idx : ℤ) : DukM Bool := fun c =>
  match normIdx c.stack.length idx with
  | none => some (false, c)
  | some j =>
    match c.stack.getD j .undefined with
    | .nullv => some (true, c)
    | .undefined => some (true, c)
    | _ => some (false, c)

/-- `serialize::Error` (only the `Message` constructor exists). -/
inductive SerError where
  | message (s : String) : SerError

/-- `Error::unsupported()`. -/
def SerError.unsupported : SerError := .message "not implemented"

/-- `value::PeekError`. -/
inductive PeekError where
  | prop (s : String) : PeekError
  | deserializeErr (e : SerError) : PeekError
  | internal : PeekError

/-- `DuktapeSerializer::serialize_i64`: 64-bit integers are unsupported. -/
def serialize_i64 (_v : ℤ) : DukM (Except SerError Unit) :=
  pure (.error SerError.unsupported)

/-- `DuktapeSerializer::serialize_u64`: 64-bit integers are unsupported. -/
def serialize_u64 (_v : ℕ) : DukM (Except SerError Unit) :=
  pure (.error SerError.unsupported)

/-- `DuktapeDeserializer::deserialize_i64`: unsupported. -/
def deserialize_i64 (_idx : ℤ) : DukM (Except SerError ℤ) :=
  pure (.error SerError.unsupported)

/-- `DuktapeDeserializer::deserialize_u64`: unsupported. -/
def deserialize_u64 (_idx : ℤ) : DukM (Except SerError ℕ) :=
  pure (.error SerError.unsupported)


/-- Binary32 representability: `q` is exactly a finite IEEE-754 single,
i.e. `q = m * 2 ^ e` with `|m| < 2 ^ 24` and `-149 ≤ e ≤ 104`. -/
def IsF32 (q : ℚ) : Prop :=
  ∃ e ∈ Finset.Icc (-149 : ℤ) 104, (q * 2 ^ (-e)).den = 1 ∧ |q * 2 ^ (-e)| < 2 ^ 24

instance : DecidablePred IsF32 := fun q => by
  unfold IsF32; infer_instance

/-- Rust `as` cast from f64 to f32.  IEEE round-to-nearest is the identity on
values already representable in binary32, which is the only case the scalar
decode paths under verification reach (the value was widened from an f32);
non-representable inputs are modelled by an arbitrary representable value. -/
def f64CastF32 (q : ℚ) : ℚ := if IsF32 q then q else 0

/-- Rust `as` wrapping cast u32 to u8. -/
def wrapU8 (n : ℕ) : ℕ := n % 2 ^ 8

/-- Rust `as` wrapping cast u32 to u16. -/
def wrapU16 (n : ℕ) : ℕ := n % 2 ^ 16

/-- Rust `as` wrapping cast i32 to i8. -/
def wrapI8 (z : ℤ) : ℤ := (z + 2 ^ 7) % 2 ^ 8 - 2 ^ 7

/-- Rust `as` wrapping cast i32 to i16. -/
def wrapI16 (z : ℤ) : ℤ := (z + 2 ^ 15) % 2 ^ 16 - 2 ^ 15

/-- `DuktapeSerializer::serialize_bool` (`ctx.push_bool`). -/
def serialize_bool (v : Bool) : DukM (Except SerError Unit) := do
  pushRaw (.boolean v); pure (.ok ())

/-- `DuktapeSerializer::serialize_i8` (`ctx.push_int(v.into())`). -/
def serialize_i8 (v : ℤ) : DukM (Except SerError Unit) := do
  pushRaw (.num (v : ℚ)); pure (.ok ())

/-- `DuktapeSerializer::serialize_i16` (`ctx.push_int(v.into())`). -/
def serialize_i16 (v : ℤ) : DukM (Except SerError Unit) := do
  pushRaw (.num (v : ℚ)); pure (.ok ())

/-- `DuktapeSerializer::serialize_i32` (`ctx.push_int`). -/
def serialize_i32 (v : ℤ) : DukM (Except SerError Unit) := do
  pushRaw (.num (v : ℚ)); pure (.ok ())

/-- `DuktapeSerializer::serialize_u8` (`ctx.push_uint(v.into())`). -/
def serialize_u8 (v : ℕ) : DukM (Except SerError Unit) := do
  pushRaw (.num (v : ℚ)); pure (.ok ())

/-- `DuktapeSerializer::serialize_u16` (`ctx.push_uint(v.into())`). -/
def serialize_u16 (v : ℕ) : DukM (Except SerError Unit) := do
  pushRaw (.num (v : ℚ)); pure (.ok ())

/-- `DuktapeSerializer::serialize_u32` (`ctx.push_uint`). -/
def serialize_u32 (v : ℕ) : DukM (Except SerError Unit) := do
  pushRaw (.num (v : ℚ)); pure (.ok ())

/-- `DuktapeSerializer::serialize_f64` (`ctx.push_double`). -/
def serialize_f64 (v : ℚ) : DukM (Except SerError Unit) := do
  pushRaw (.num v); pure (.ok ())

/-- `DuktapeSerializer::serialize_f32` (`ctx.push_double(v.into())`; the
f32-to-f64 widening is exact). -/
def serialize_f32 (v : ℚ) : DukM (Except SerError Unit) := do
  pushRaw (.num v); pure (.ok ())

/-- `DuktapeSerializer::serialize_str` (`ctx.push_string`). -/
def serialize_str (v : String) : DukM (Except SerError Unit) := do
  pushRaw (.str v); pure (.ok ())

/-- `DuktapeDeserializer::deserialize_bool` (`get_bool`, `visit_bool`). -/
def deserialize_bool (idx : ℤ) : DukM (Except SerError Bool) := do
  pure (.ok (← requireBoolean idx))

/-- `DuktapeDeserializer::deserialize_i8` (`get_int` then `val as i8`). -/
def deserialize_i8 (idx : ℤ) : DukM (Except SerError ℤ) := do
  pure (.ok (wrapI8 (← requireInt idx)))

/-- `DuktapeDeserializer::deserialize_i16` (`get_int` then `val as i16`). -/
def deserialize_i16 (idx : ℤ) : DukM (Except SerError ℤ) := do
  pure (.ok (wrapI16 (← requireInt idx)))

/-- `DuktapeDeserializer::deserialize_i32` (`get_int`, `visit_i32`). -/
def deserialize_i32 (idx : ℤ) : DukM (Except SerError ℤ) := do
  pure (.ok (← requireInt idx))

/-- `DuktapeDeserializer::deserialize_u8` (`get_uint` then `val as u8`). -/
def deserialize_u8 (idx : ℤ) : DukM (Except SerError ℕ) := do
  pure (.ok (wrapU8 (← requireUint idx)))

/-- `DuktapeDeserializer::deserialize_u16` (`get_uint` then `val as u16`). -/
def deserialize_u16 (idx : ℤ) : DukM (Except SerError ℕ) := do
  pure (.ok (wrapU16 (← requireUint idx)))

/-- `DuktapeDeserializer::deserialize_u32` (`get_uint`, `visit_u32`). -/
def deserialize_u32 (idx : ℤ) : DukM (Except SerError ℕ) := do
  pure (.ok (← requireUint idx))

/-- `DuktapeDeserializer::deserialize_f64` (`get_number`, `visit_f64`). -/
def deserialize_f64 (idx : ℤ) : DukM (Except SerError ℚ) := do
  pure (.ok (← requireNumber idx))

/-- `DuktapeDeserializer::deserialize_f32` (`get_number` then `val as f32`). -/
def deserialize_f32 (idx : ℤ) : DukM (Except SerError ℚ) := do
  pure (.ok (f64CastF32 (← requireNumber idx)))

/-- `DuktapeDeserializer::deserialize_string` (`get_string`, `visit_string`). -/
def deserialize_string (idx : ℤ) : DukM (Except SerError String) := do
  pure (.ok (← requireLString idx))

/-- `SerdeValue::push_to`: run the serializer, `.unwrap()` (a serialization
error panics), then return `ctx.stack_top()`. -/
def pushViaSerde (ser : DukM (Except SerError Unit)) : DukM ℕ := do
  match ← ser with
  | .ok _ => stackTopIdx
  | .error _ => throwEngine

/-- `SerdeValue::peek_at` as used by the `via_serde!` impls: run the
deserializer, wrapping its error into `PeekError::Deserialize`. -/
def peekViaSerde (des : DukM (Except SerError α)) : DukM (Except PeekError α) := do
  match ← des with
  | .ok v => pure (.ok v)
  | .error e => pure (.error (.deserializeErr e))

/-- `<bool as PushValue>::push_to` (via `via_serde!`). -/
def bool_push_to (v : Bool) : DukM ℕ := pushViaSerde (serialize_bool v)

/-- `<bool as PeekValue>::peek_at` (via `via_serde!`). -/
def bool_peek_at (idx : ℤ) : DukM (Except PeekError Bool) :=
  peekViaSerde (deserialize_bool idx)

/-- `<u8 as PushValue>::push_to`. -/
def u8_push_to (v : ℕ) : DukM ℕ := pushViaSerde (serialize_u8 v)

/-- `<u8 as PeekValue>::peek_at`. -/
def u8_peek_at (idx : ℤ) : DukM (Except PeekError ℕ) :=
  peekViaSerde (deserialize_u8 idx)

/-- `<u16 as PushValue>::push_to`. -/
def u16_push_to (v : ℕ) : DukM ℕ := pushViaSerde (serialize_u16 v)

/-- `<u16 as PeekValue>::peek_at`. -/
def u16_peek_at (idx : ℤ) : DukM (Except PeekError ℕ) :=
  peekViaSerde (deserialize_u16 idx)

/-- `<u32 as PushValue>::push_to`. -/
def u32_push_to (v : ℕ) : DukM ℕ := pushViaSerde (serialize_u32 v)

/-- `<u32 as PeekValue>::peek_at`. -/
def u32_peek_at (idx : ℤ) : DukM (Except PeekError ℕ) :=
  peekViaSerde (deserialize_u32 idx)

/-- `<i8 as PushValue>::push_to`. -/
def i8_push_to (v : ℤ) : DukM ℕ := pushViaSerde (serialize_i8 v)

/-- `<i8 as PeekValue>::peek_at`. -/
def i8_peek_at (idx : ℤ) : DukM (Except PeekError ℤ) :=
  peekViaSerde (deserialize_i8 idx)

/-- `<i16 as PushValue>::push_to`. -/
def i16_push_to (v : ℤ) : DukM ℕ := pushViaSerde (serialize_i16 v)

/-- `<i16 as PeekValue>::peek_at`. -/
def i16_peek_at (idx : ℤ) : DukM (Except PeekError ℤ) :=
  peekViaSerde (deserialize_i16 idx)

/-- `<i32 as PushValue>::push_to`. -/
def i32_push_to (v : ℤ) : DukM ℕ := pushViaSerde (serialize_i32 v)

/-- `<i32 as PeekValue>::peek_at`. -/
def i32_peek_at (idx : ℤ) : DukM (Except PeekError ℤ) :=
  peekViaSerde (deserialize_i32 idx)

/-- `<f32 as PushValue>::push_to`. -/
def f32_push_to (v : ℚ) : DukM ℕ := pushViaSerde (serialize_f32 v)

/-- `<f32 as PeekValue>::peek_at`. -/
def f32_peek_at (idx : ℤ) : DukM (Except PeekError ℚ) :=
  peekViaSerde (deserialize_f32 idx)

/-- `<f64 as PushValue>::push_to`. -/
def f64_push_to (v : ℚ) : DukM ℕ := pushViaSerde (serialize_f64 v)

/-- `<f64 as PeekValue>::peek_at`. -/
def f64_peek_at (idx : ℤ) : DukM (Except PeekError ℚ) :=
  peekViaSerde (deserialize_f64 idx)

/-- `<String as PushValue>::push_to`. -/
def string_push_to (v : String) : DukM ℕ := pushViaSerde (serialize_str v)

/-- `<String as PeekValue>::peek_at`. -/
def string_peek_at (idx : ℤ) : DukM (Except PeekError String) :=
  peekViaSerde (deserialize_string idx)

/-- Push a scalar and immediately peek it back from the returned index
(the round-trip of the Value Protocol); only the decoded value is kept. -/
def roundTrip (push : DukM ℕ) (peek : ℤ → DukM (Except PeekError α))
    (c : Ctx) : Option (Except PeekError α) :=
  ((do let i ← push; peek (i : ℤ)) c).map Prod.fst

/-- UTF-8 encoding of a Unicode code point (Rust `str::as_bytes` emits this
per character). -/
def utf8Bytes (cp : ℕ) : List ℕ :=
  if cp < 0x80 then [cp]
  else if cp < 0x800 then [0xC0 + cp / 0x40, 0x80 + cp % 0x40]
  else if cp < 0x10000 then
    [0xE0 + cp / 0x1000, 0x80 + cp / 0x40 % 0x40, 0x80 + cp % 0x40]
  else
    [0xF0 + cp / 0x40000, 0x80 + cp / 0x1000 % 0x40, 0x80 + cp / 0x40 % 0x40,
      0x80 + cp % 0x40]

/-- The UTF-8 bytes of a Rust string (`str::as_bytes`). -/
def strBytes (s : String) : List ℕ :=
  (s.data.map (fun ch => utf8Bytes ch.toNat)).flatten

/-- `<Option<T> as PushValue>::push_to`: `Some(v)` delegates to `v.push_to`;
`None` pushes the engine undefined value and returns `ctx.stack_top()`. -/
def option_push_to (pushT : α → DukM ℕ) : Option α → DukM ℕ
  | some v => pushT v
  | none => do pushRaw .undefined; stackTopIdx

/-- `<Option<T> as PeekValue>::peek_at`: a null-or-undefined slot decodes to
`None` (no error); anything else delegates to `T::peek_at`, wrapped in
`Some`. -/
def option_peek_at (peekT : ℤ → DukM (Except PeekError α)) (idx : ℤ) :
    DukM (Except PeekError (Option α)) := do
  if ← isNullOrUndefined idx then pure (.ok none)
  else
    match ← peekT idx with
    | .ok v => pure (.ok (some v))
    | .error e => pure (.error e)

/-- `DuktapeStructDeserializer::next_element_seed` for one declared field.
The source calls `self.ctx.get_prop(prop_name, 0)`, passing the property
name where `Context::get_prop`'s stack index belongs and the constant `0`
where the name belongs (the deserializer's `obj_idx` field is stored but
never used), so the lookup targets absolute stack index 0; a failed lookup
aborts with `Error::Message("incorrect field")`; on success the property
value now at the stack top is decoded by the field's seed and popped. -/
def next_element_seed (dec : ℤ → DukM (Except SerError α)) (name : String) :
    DukM (Except SerError α) := do
  let found ← getPropLString 0 (strBytes name)
  if !found then pure (.error (.message "incorrect field"))
  else
    match ← dec (-1) with
    | .error e => pure (.error e)
    | .ok v => do popIt; pure (.ok v)

/-- The serde struct visitor loop (`visit_seq` calling `next_element_seed`
once per declared field, in declaration order, failing fast). -/
def visitStructFields (dec : ℤ → DukM (Except SerError α)) :
    List String → DukM (Except SerError (List α))
  | [] => pure (.ok [])
  | name :: rest => do
    match ← next_element_seed dec name with
    | .error e => pure (.error e)
    | .ok v =>
      match ← visitStructFields dec rest with
      | .error e => pure (.error e)
      | .ok vs => pure (.ok (v :: vs))

/-- `DuktapeDeserializer::deserialize_struct`: require an object at the
target index, run the field loop, and pop once on success (an error
propagates out before the pop). -/
def deserialize_struct (fields : List String)
    (dec : ℤ → DukM (Except SerError α)) (stackIdx : ℤ) :
    DukM (Except SerError (List α)) := do
  requireObject stackIdx
  match ← visitStructFields dec fields with
  | .error e => pure (.error e)
  | .ok vs => do popIt; pure (.ok vs)

/-- The `#[duktape]` free-function trampoline (`bare_func`), generated for a
native function with `k` typed value arguments.  The macro's `args` list
skips the `&mut Context` parameter, so the generated `raw_args_count` is
`k - 1`; the trampoline checks `stack_len() < raw_args_count`, returning -1
on failure, then decodes argument `i` at stack index `-(k) + i` (a decode
failure panics via `.expect`, modelled as an engine-level failure), pops
`raw_args_count` slots when that count is positive, invokes the native body,
pushes the result when the signature returns one, and returns the declared
result count (1 or 0). -/
def bare_func {α β : Type} (k : ℕ) (peekArg : ℕ → ℤ → DukM (Except PeekError α))
    (body : List α → β) (retPush : Option (β → DukM ℕ)) : DukM ℤ := do
  let n ← stackLen
  if n < (k : ℤ) - 1 then pure (-1)
  else do
    let args ← (List.range k).mapM (fun i => do
      match ← peekArg i (-(k : ℤ) + i) with
      | .ok v => pure v
      | .error _ => throwEngine)
    if (k : ℤ) - 1 > 0 then popN ((k : ℤ) - 1) else pure ()
    let result := body args
    match retPush with
    | some p => do
      let _ ← p result
      pure 1
    | none => pure 0

/-- Increment the strong count of the allocation at `addr`
(`Rc::increment_strong_count`). -/
def rcIncr (l : List (ℕ × ℕ)) (addr : ℕ) : List (ℕ × ℕ) :=
  l.map (fun e => if e.1 = addr then (e.1, e.2 + 1) else e)

/-- Decrement the strong count of the allocation at `addr` (`Rc::drop`). -/
def rcDecr (l : List (ℕ × ℕ)) (addr : ℕ) : List (ℕ × ℕ) :=
  l.map (fun e => if e.1 = addr then (e.1, e.2 - 1) else e)

/-- `Rc::increment_strong_count` as a context action. -/
def rcIncrement (addr : ℕ) : DukM Unit := fun c =>
  some ((), { c with rc := rcIncr c.rc addr })

/-- Modelled from `std::rc::Rc`: dropping a native handle decrements its
allocation's strong count. -/
def rcDrop (c : Ctx) (addr : ℕ) : Ctx := { c with rc := rcDecr c.rc addr }

/-- The strong count of the allocation at `addr`. -/
def rcCount (c : Ctx) (addr : ℕ) : ℕ := (c.rc.lookup addr).getD 0

/-- The engine-side wrapper object produced for an `Rc<T>`: a raw pointer
under `"__rc"` and the type-name string under `"__type"`. -/
def rcWrapper (tyName : String) (addr : ℕ) : DukValue :=
  .obj [(strBytes "__rc", .pointer addr), (strBytes "__type", .str tyName)]

/-- `<Rc<T> as PushValue>::push_to`: push a fresh object, store the raw
pointer (`Rc::into_raw`; the strong count is unchanged, ownership of one
reference moves into the stack slot) under `"__rc"` and
`std::any::type_name::<T>()` under `"__type"`, and return the object's
index. -/
def rc_push_to (tyName : String) (addr : ℕ) : DukM ℕ := do
  let idx ← pushObject
  pushRaw (.pointer addr)
  putPropLString (idx : ℤ) (strBytes "__rc")
  pushRaw (.str tyName)
  putPropLString (idx : ℤ) (strBytes "__type")
  pure idx

/-- `value::peek_rc`: require an object, read the `"__type"` tag (failing
with `None` when the property is absent or the tag differs from the native
type's name), then read the `"__rc"` pointer; increment the strong count
only when `copy` is set, and reconstruct the handle (`Rc::from_raw`, count
unchanged). -/
def peek_rc (tyName : String) (idx : ℤ) (copy : Bool) : DukM (Option ℕ) := do
  requireObject idx
  let found ← getPropLString idx (strBytes "__type")
  if !found then pure none
  else do
    let typ ← requireLString (-1)
    popIt
    if typ ≠ tyName then pure none
    else do
      let found2 ← getPropLString idx (strBytes "__rc")
      if !found2 then pure none
      else do
        let ptr ← requirePointer (-1)
        popIt
        if copy then rcIncrement ptr else pure ()
        pure (some ptr)

/-- `<Rc<T> as PeekValue>::peek_at`: the copying (non-destructive) read;
`None` from `peek_rc` becomes `PeekError::Internal`. -/
def rc_peek_at (tyName : String) (idx : ℤ) : DukM (Except PeekError ℕ) := do
  match ← peek_rc tyName idx true with
  | some p => pure (.ok p)
  | none => pure (.error .internal)

/-- `<Rc<T> as PeekValue>::pop`: the consuming read (`peek_rc` without the
increment, then `pop_it`; the early return on `None` happens before the
pop). -/
def rc_pop (tyName : String) : DukM (Except PeekError ℕ) := do
  match ← peek_rc tyName (-1) false with
  | some p => do popIt; pure (.ok p)
  | none => pure (.error .internal)

/-- `FieldMeta::prop_name`: a hidden field's property key is the sentinel
byte 0xFF followed by the field name's bytes; an ordinary field's key is the
plain field-name bytes. -/
def prop_name (name : String) (is_hidden : Bool) : PropKey :=
  if is_hidden then 0xff :: strBytes name else strBytes name

/-- The derived `PushValue::push_to` for a record type: allocate an object,
then for each field push its encoded value and bind it under
`prop_name` via `put_prop_bytes`; `register_methods` is a no-op for a type
with no declared method allow-list.  Each field's encoding is the single
engine value it leaves at the stack top. -/
def derive_push_to (fields : List (String × Bool × DukValue)) : DukM ℕ := do
  let idx ← pushObject
  fields.forM (fun f => do
    pushRaw f.2.2
    putPropLString (idx : ℤ) (prop_name f.1 f.2.1))
  pure idx

/-- The property table accumulated by `derive_push_to`. -/
def deriveProps (fields : List (String × Bool × DukValue)) : List (PropKey × DukValue) :=
  fields.foldl (fun ps f => setAssoc ps (prop_name f.1 f.2.1) f.2.2) []

end Dukt

namespace Dukt


theorem DukM_bind_apply (m : DukM α) (f : α → DukM β) (c : Ctx) :
    (m >>= f) c = match m c with
      | none => none
      | some (a, c') => f a c' := rfl

theorem DukM_pure_apply (a : α) (c : Ctx) : (pure a : DukM α) c = some (a, c) := rfl

theorem normIdx_nat (len j : ℕ) (h : j < len) : normIdx len (j : ℤ) = some j := by
  unfold normIdx
  rw [if_neg (by omega), if_pos (by omega)]
  simp

theorem getD_concat (s : List α) (v d : α) : (s ++ [v]).getD s.length d = v := by
  induction s with
  | nil => rfl
  | cons a t ih => simpa using ih

theorem getSlot_pushed (c : Ctx) (w : DukValue) :
    getSlot (c.stack.length : ℤ) { c with stack := c.stack ++ [w] }
      = some (w, { c with stack := c.stack ++ [w] }) := by
  have h1 : normIdx (c.stack ++ [w]).length (c.stack.length : ℤ) = some c.stack.length :=
    normIdx_nat _ _ (by simp)
  have h2 := getD_concat c.stack w DukValue.undefined
  simp only [getSlot, h1]
  rw [h2]

theorem roundTrip_ok (c : Ctx) (w : DukValue)
    (ser : DukM (Except SerError Unit)) (peek : ℤ → DukM (Except PeekError α))
    (a : α)
    (hser : ser c = some (.ok (), { c with stack := c.stack ++ [w] }))
    (hpeek : peek (c.stack.length : ℤ) { c with stack := c.stack ++ [w] }
        = some (.ok a, { c with stack := c.stack ++ [w] })) :
    roundTrip (pushViaSerde ser) peek c = some (.ok a) := by
  simp [roundTrip, DukM_bind_apply, pushViaSerde, hser, stackTopIdx, hpeek]

theorem serialize_push_apply (c : Ctx) (w : DukValue) :
    (do pushRaw w; pure (.ok ()) : DukM (Except SerError Unit)) c
      = some (.ok (), { c with stack := c.stack ++ [w] }) := by
  simp [DukM_bind_apply, pushRaw, DukM_pure_apply]

theorem ratTruncTZ_intCast (z : ℤ) : ratTruncTZ (z : ℚ) = z := by
  unfold ratTruncTZ
  split <;> simp

theorem clampI_id (lo hi z : ℤ) (h1 : lo ≤ z) (h2 : z ≤ hi) : clampI lo hi z = z := by
  unfold clampI
  rw [if_neg (by omega), if_neg (by omega)]

theorem requireInt_eval (c : Ctx) (idx : ℤ) (z : ℤ)
    (h1 : -(2 ^ 31) ≤ z) (h2 : z < 2 ^ 31)
    (hget : getSlot idx c = some (.num (z : ℚ), c)) :
    requireInt idx c = some (z, c) := by
  simp only [requireInt, DukM_bind_apply, hget]
  rw [ratTruncTZ_intCast, clampI_id _ _ _ (by omega) (by omega)]
  rfl

theorem requireUint_eval (c : Ctx) (idx : ℤ) (z : ℤ)
    (h1 : 0 ≤ z) (h2 : z < 2 ^ 32)
    (hget : getSlot idx c = some (.num (z : ℚ), c)) :
    requireUint idx c = some (z.toNat, c) := by
  simp only [requireUint, DukM_bind_apply, hget]
  rw [ratTruncTZ_intCast, clampI_id _ _ _ (by omega) (by omega)]
  rfl

theorem requireUintNat_eval (c : Ctx) (idx : ℤ) (v : ℕ) (h2 : v < 2 ^ 32)
    (hget : getSlot idx c = some (.num ((v : ℕ) : ℚ), c)) :
    requireUint idx c = some (v, c) := by
  have hcast : ((v : ℕ) : ℚ) = (((v : ℤ)) : ℚ) := by push_cast; ring
  rw [hcast] at hget
  have h := requireUint_eval c idx (v : ℤ) (by omega) (by omega) hget
  simpa using h

/-- C1: for every supported scalar type (booleans, fixed-width integers up to
32 bits, 32/64-bit floats, UTF-8 strings) and every value of that type,
pushing it via the Value Protocol (`push_to`, through the serializer bridge)
and peeking it back from the returned stack index (`peek_at`) returns exactly
the original value, from any starting context. -/
theorem c1_scalar_roundtrip :
    ∀ c : Ctx,
      (∀ b : Bool, roundTrip (bool_push_to b) bool_peek_at c = some (.ok b)) ∧
      (∀ v : ℕ, v < 2 ^ 8 → roundTrip (u8_push_to v) u8_peek_at c = some (.ok v)) ∧
      (∀ v : ℕ, v < 2 ^ 16 → roundTrip (u16_push_to v) u16_peek_at c = some (.ok v)) ∧
      (∀ v : ℕ, v < 2 ^ 32 → roundTrip (u32_push_to v) u32_peek_at c = some (.ok v)) ∧
      (∀ v : ℤ, -(2 ^ 7) ≤ v → v < 2 ^ 7 →
        roundTrip (i8_push_to v) i8_peek_at c = some (.ok v)) ∧
      (∀ v : ℤ, -(2 ^ 15) ≤ v → v < 2 ^ 15 →
        roundTrip (i16_push_to v) i16_peek_at c = some (.ok v)) ∧
      (∀ v : ℤ, -(2 ^ 31) ≤ v → v < 2 ^ 31 →
        roundTrip (i32_push_to v) i32_peek_at c = some (.ok v)) ∧
      (∀ v : ℚ, IsF32 v → roundTrip (f32_push_to v) f32_peek_at c = some (.ok v)) ∧
      (∀ v : ℚ, roundTrip (f64_push_to v) f64_peek_at c = some (.ok v)) ∧
      (∀ v : String, roundTrip (string_push_to v) string_peek_at c = some (.ok v)) := by
  intro c
  refine ⟨?_, ?_, ?_, ?_, ?_, ?_, ?_, ?_, ?_, ?_⟩
  · intro b
    unfold bool_push_to
    refine roundTrip_ok c (.boolean b) _ _ b (serialize_push_apply c _) ?_
    simp [bool_peek_at, peekViaSerde, deserialize_bool, requireBoolean,
      DukM_bind_apply, DukM_pure_apply, getSlot_pushed]
  · intro v hv
    unfold u8_push_to
    refine roundTrip_ok c (.num (v : ℚ)) _ _ v (serialize_push_apply c _) ?_
    have hval := requireUintNat_eval _ _ v (by omega) (getSlot_pushed c (.num (v : ℚ)))
    simp [u8_peek_at, peekViaSerde, deserialize_u8, DukM_bind_apply,
      DukM_pure_apply, hval, wrapU8, Nat.mod_eq_of_lt hv]
    omega
  · intro v hv
    unfold u16_push_to
    refine roundTrip_ok c (.num (v : ℚ)) _ _ v (serialize_push_apply c _) ?_
    have hval := requireUintNat_eval _ _ v (by omega) (getSlot_pushed c (.num (v : ℚ)))
    simp [u16_peek_at, peekViaSerde, deserialize_u16, DukM_bind_apply,
      DukM_pure_apply, hval, wrapU16, Nat.mod_eq_of_lt hv]
    omega
  · intro v hv
    unfold u32_push_to
    refine roundTrip_ok c (.num (v : ℚ)) _ _ v (serialize_push_apply c _) ?_
    have hval := requireUintNat_eval _ _ v (by omega) (getSlot_pushed c (.num (v : ℚ)))
    simp [u32_peek_at, peekViaSerde, deserialize_u32, DukM_bind_apply,
      DukM_pure_apply, hval]
  · intro v h1 h2
    unfold i8_push_to
    refine roundTrip_ok c (.num (v : ℚ)) _ _ v (serialize_push_apply c _) ?_
    have hval := requireInt_eval _ _ v (by omega) (by omega)
      (getSlot_pushed c (.num (v : ℚ)))
    have hwrap : wrapI8 v = v := by unfold wrapI8; omega
    simp [i8_peek_at, peekViaSerde, deserialize_i8, DukM_bind_apply,
      DukM_pure_apply, hval, hwrap]
  · intro v h1 h2
    unfold i16_push_to
    refine roundTrip_ok c (.num (v : ℚ)) _ _ v (serialize_push_apply c _) ?_
    have hval := requireInt_eval _ _ v (by omega) (by omega)
      (getSlot_pushed c (.num (v : ℚ)))
    have hwrap : wrapI16 v = v := by unfold wrapI16; omega
    simp [i16_peek_at, peekViaSerde, deserialize_i16, DukM_bind_apply,
      DukM_pure_apply, hval, hwrap]
  · intro v h1 h2
    unfold i32_push_to
    refine roundTrip_ok c (.num (v : ℚ)) _ _ v (serialize_push_apply c _) ?_
    have hval := requireInt_eval _ _ v h1 h2 (getSlot_pushed c (.num (v : ℚ)))
    simp [i32_peek_at, peekViaSerde, deserialize_i32, DukM_bind_apply,
      DukM_pure_apply, hval]
  · intro v hv
    unfold f32_push_to
    refine roundTrip_ok c (.num v) _ _ v (serialize_push_apply c _) ?_
    simp [f32_peek_at, peekViaSerde, deserialize_f32, requireNumber,
      DukM_bind_apply, DukM_pure_apply, getSlot_pushed, f64CastF32, if_pos hv]
  · intro v
    unfold f64_push_to
    refine roundTrip_ok c (.num v) _ _ v (serialize_push_apply c _) ?_
    simp [f64_peek_at, peekViaSerde, deserialize_f64, requireNumber,
      DukM_bind_apply, DukM_pure_apply, getSlot_pushed]
  · intro v
    unfold string_push_to
    refine roundTrip_ok c (.str v) _ _ v (serialize_push_apply c _) ?_
    simp [string_peek_at, peekViaSerde, deserialize_string, requireLString,
      DukM_bind_apply, DukM_pure_apply, getSlot_pushed]

/-- Witness for C1 at concrete inputs, discharging each range hypothesis. -/
theorem c1_scalar_roundtrip_witness :
    roundTrip (u8_push_to 200) u8_peek_at ⟨[], []⟩ = some (.ok 200) ∧
    roundTrip (u16_push_to 60000) u16_peek_at ⟨[], []⟩ = some (.ok 60000) ∧
    roundTrip (u32_push_to 4000000000) u32_peek_at ⟨[], []⟩ = some (.ok 4000000000) ∧
    roundTrip (i8_push_to (-100)) i8_peek_at ⟨[], []⟩ = some (.ok (-100)) ∧
    roundTrip (i16_push_to (-30000)) i16_peek_at ⟨[], []⟩ = some (.ok (-30000)) ∧
    roundTrip (i32_push_to (-2000000000)) i32_peek_at ⟨[], []⟩ = some (.ok (-2000000000)) ∧
    roundTrip (f32_push_to (3 / 2)) f32_peek_at ⟨[], []⟩ = some (.ok (3 / 2)) := by
  have h32 : IsF32 (3 / 2 : ℚ) := ⟨-1, by decide, by norm_num⟩
  exact ⟨(c1_scalar_roundtrip ⟨[], []⟩).2.1 200 (by norm_num),
    (c1_scalar_roundtrip ⟨[], []⟩).2.2.1 60000 (by norm_num),
    (c1_scalar_roundtrip ⟨[], []⟩).2.2.2.1 4000000000 (by norm_num),
    (c1_scalar_roundtrip ⟨[], []⟩).2.2.2.2.1 (-100) (by norm_num) (by norm_num),
    (c1_scalar_roundtrip ⟨[], []⟩).2.2.2.2.2.1 (-30000) (by norm_num) (by norm_num),
    (c1_scalar_roundtrip ⟨[], []⟩).2.2.2.2.2.2.1 (-2000000000) (by norm_num) (by norm_num),
    (c1_scalar_roundtrip ⟨[], []⟩).2.2.2.2.2.2.2.1 (3 / 2) h32⟩

/-- C10: decoding a fixed-width integer narrower than 32 bits reads the engine
value as a 32-bit integer and truncates it with a plain wrapping cast: for
every engine number whose 32-bit value is `z`, the decode succeeds with the
value reduced modulo `2 ^ 8` (resp. `2 ^ 16`) and never reports a range
error. -/
theorem c10_narrow_int_wrapping :
    ∀ (c : Ctx) (idx : ℤ) (j : ℕ) (z : ℤ),
      normIdx c.stack.length idx = some j →
      c.stack.getD j .undefined = .num (z : ℚ) →
      (-(2 ^ 31) ≤ z → z < 2 ^ 31 →
        (deserialize_i8 idx c = some (.ok (wrapI8 z), c) ∧ wrapI8 z % 2 ^ 8 = z % 2 ^ 8) ∧
        (deserialize_i16 idx c = some (.ok (wrapI16 z), c) ∧ wrapI16 z % 2 ^ 16 = z % 2 ^ 16)) ∧
      (0 ≤ z → z < 2 ^ 32 →
        (deserialize_u8 idx c = some (.ok (z.toNat % 2 ^ 8), c) ∧
          (z.toNat % 2 ^ 8 : ℤ) = z % 2 ^ 8) ∧
        (deserialize_u16 idx c = some (.ok (z.toNat % 2 ^ 16), c) ∧
          (z.toNat % 2 ^ 16 : ℤ) = z % 2 ^ 16)) := by
  intro c idx j z hnorm hslot
  have hget : getSlot idx c = some (.num (z : ℚ), c) := by
    simp only [getSlot, hnorm]
    rw [hslot]
  constructor
  · intro h1 h2
    have hval := requireInt_eval c idx z h1 h2 hget
    refine ⟨⟨?_, by unfold wrapI8; omega⟩, ⟨?_, by unfold wrapI16; omega⟩⟩
    · simp [deserialize_i8, DukM_bind_apply, DukM_pure_apply, hval]
    · simp [deserialize_i16, DukM_bind_apply, DukM_pure_apply, hval]
  · intro h1 h2
    have hval := requireUint_eval c idx z h1 h2 hget
    refine ⟨⟨?_, by omega⟩, ⟨?_, by omega⟩⟩
    · simp [deserialize_u8, DukM_bind_apply, DukM_pure_apply, hval, wrapU8]
    · simp [deserialize_u16, DukM_bind_apply, DukM_pure_apply, hval, wrapU16]

/-- Witness for C10: decoding the number 300 as u8 yields 44 = 300 mod 256,
with no error. -/
theorem c10_narrow_int_wrapping_witness :
    deserialize_u8 0 ⟨[.num ((300 : ℤ) : ℚ)], []⟩
      = some (.ok 44, ⟨[.num ((300 : ℤ) : ℚ)], []⟩) := by
  have h := ((c10_narrow_int_wrapping ⟨[.num ((300 : ℤ) : ℚ)], []⟩ 0 0 300
    (by decide) rfl).2 (by norm_num) (by norm_num)).1.1
  simpa using h


/-- C6: pushing an Option encodes `None` as the engine undefined value
(returning its stack-top index) and `Some(v)` by delegating to `v`'s
encoding; decoding at an index holding null or undefined returns `None` and
never an error, and otherwise delegates to the inner decoder with its result
wrapped in `Some` (inner errors propagate unchanged). -/
theorem c6_option_encoding :
    ∀ (pushT : α → DukM ℕ) (peekT : ℤ → DukM (Except PeekError α))
      (c : Ctx) (idx : ℤ) (v : α),
      option_push_to pushT (some v) c = pushT v c ∧
      option_push_to pushT none c
        = some (c.stack.length, { c with stack := c.stack ++ [.undefined] }) ∧
      (isNullOrUndefined idx c = some (true, c) →
        option_peek_at peekT idx c = some (.ok none, c)) ∧
      (isNullOrUndefined idx c = some (false, c) →
        option_peek_at peekT idx c
          = (peekT idx c).map (fun p => (p.1.map some, p.2))) := by
  intro pushT peekT c idx v
  refine ⟨rfl, ?_, ?_, ?_⟩
  · simp [option_push_to, DukM_bind_apply, pushRaw, stackTopIdx]
  · intro h
    simp [option_peek_at, DukM_bind_apply, h, DukM_pure_apply]
  · intro h
    simp only [option_peek_at, DukM_bind_apply, h]
    cases hp : peekT idx c with
    | none => simp [DukM_bind_apply, hp]
    | some p =>
      rcases p with ⟨r, c2⟩
      cases r <;> simp [DukM_bind_apply, hp, DukM_pure_apply, Except.map]

/-- Witness for C6: a null slot decodes to `None`; a numeric slot delegates
to the inner u32 decoder wrapped in `Some`. -/
theorem c6_option_encoding_witness :
    option_peek_at u32_peek_at 0 ⟨[.nullv], []⟩ = some (.ok none, ⟨[.nullv], []⟩) ∧
    option_peek_at u32_peek_at 0 ⟨[.num 5], []⟩
      = ((u32_peek_at 0 ⟨[.num 5], []⟩).map (fun p => (p.1.map some, p.2))) :=
  ⟨(c6_option_encoding u32_push_to u32_peek_at ⟨[.nullv], []⟩ 0 0).2.2.1 rfl,
   (c6_option_encoding u32_push_to u32_peek_at ⟨[.num 5], []⟩ 0 0).2.2.2 rfl⟩

/-- C3 (code bug): the generated arity guard compares `stack_len()` against
`raw_args_count = args_count - 1`, an off-by-one (the macro's `args` list
never contains the `&mut Context` parameter it discounts).  A trampoline for
a function with two typed arguments invoked with a single value on the stack
therefore does NOT return the documented negative code: the guard `1 < 1`
fails to fire, decoding of the first argument at index -2 faults at the
invalid stack index (an engine-level failure, modelled as `none`), and the
native body is never invoked — but no `-1` is ever produced. -/
theorem c3_arity_guard_off_by_one :
    bare_func 2 (fun _ => u32_peek_at) (fun l => l.sum) (some u32_push_to)
        ⟨[.num 7], []⟩ = none :=
  rfl

/-- C4 (code bug): the trampoline for a two-typed-argument adder invoked with
both arguments on the stack decodes them at offsets -2 and -1 (last argument
nearest the top) and returns 1 after pushing the sum, but pops only
`raw_args_count = args_count - 1 = 1` slot before pushing: the first
argument's slot survives, so the final stack is `[1, 3]`, not the `[3]` that
removing all consumed argument slots would leave. -/
theorem c4_trampoline_leaves_arg_slot :
    bare_func 2 (fun _ => u32_peek_at) (fun l => l.sum) (some u32_push_to)
        ⟨[.num 1, .num 2], []⟩
      = some (1, ⟨[.num 1, .num 3], []⟩) ∧
    [DukValue.num 1, DukValue.num 3] ≠ [DukValue.num 3] := by
  exact ⟨rfl, by simp⟩

/-- C7 (code bug): `deserialize_struct` does require an object at the target
index and aborts the whole decode with `Error::Message("incorrect field")`
on a failed property lookup, but `next_element_seed` passes its arguments to
`Context::get_prop` swapped (`get_prop(prop_name, 0)` against the signature
`get_prop(idx, name)`), so the lookup targets absolute stack index 0, not
the record's target index: decoding the one-field record `{x}` at stack
index 1 fails even though the object at index 1 has the property `x` (the
second conjunct), because the object at index 0 does not. -/
theorem c7_struct_lookup_wrong_index :
    deserialize_struct ["x"] deserialize_u32 1
        ⟨[.obj [], .obj [(strBytes "x", .num 1)]], []⟩
      = some (.error (.message "incorrect field"),
          ⟨[.obj [], .obj [(strBytes "x", .num 1)], .undefined], []⟩) ∧
    (([(strBytes "x", DukValue.num 1)] : List (PropKey × DukValue)).lookup
        (strBytes "x")).isSome = true := by
  exact ⟨rfl, rfl⟩



theorem normIdx_neg_one (len : ℕ) (h : 0 < len) : normIdx len (-1) = some (len - 1) := by
  unfold normIdx
  rw [if_pos (by omega), if_pos (by omega)]
  congr 1
  omega

theorem getD_append_cons (s : List α) (v : α) (t : List α) (d : α) :
    (s ++ v :: t).getD s.length d = v := by
  induction s with
  | nil => rfl
  | cons a r ih => simpa using ih

theorem set_append_cons (s : List α) (v w : α) (t : List α) :
    (s ++ v :: t).set s.length w = s ++ w :: t := by
  induction s with
  | nil => rfl
  | cons a r ih => simp [ih]

theorem getLast_two (s : List α) (a b : α) : (s ++ [a, b]).getLast? = some b := by
  rw [show s ++ [a, b] = (s ++ [a]) ++ [b] by simp]
  simp

theorem dropLast_two (s : List α) (a b : α) : (s ++ [a, b]).dropLast = s ++ [a] := by
  rw [show s ++ [a, b] = (s ++ [a]) ++ [b] by simp]
  simp

theorem getSlot_of_norm (c : Ctx) (idx : ℤ) (j : ℕ)
    (hnorm : normIdx c.stack.length idx = some j) :
    getSlot idx c = some (c.stack.getD j .undefined, c) := by
  simp only [getSlot, hnorm]

theorem requireObject_eval (c : Ctx) (idx : ℤ) (j : ℕ) (props : List (PropKey × DukValue))
    (hnorm : normIdx c.stack.length idx = some j)
    (hslot : c.stack.getD j .undefined = .obj props) :
    requireObject idx c = some ((), c) := by
  have hget := getSlot_of_norm c idx j hnorm
  rw [hslot] at hget
  simp [requireObject, DukM_bind_apply, hget, DukM_pure_apply]

theorem requireLString_eval (c : Ctx) (idx : ℤ) (j : ℕ) (t : String)
    (hnorm : normIdx c.stack.length idx = some j)
    (hslot : c.stack.getD j .undefined = .str t) :
    requireLString idx c = some (t, c) := by
  have hget := getSlot_of_norm c idx j hnorm
  rw [hslot] at hget
  simp [requireLString, DukM_bind_apply, hget, DukM_pure_apply]

theorem requirePointer_eval (c : Ctx) (idx : ℤ) (j : ℕ) (p : ℕ)
    (hnorm : normIdx c.stack.length idx = some j)
    (hslot : c.stack.getD j .undefined = .pointer p) :
    requirePointer idx c = some (p, c) := by
  have hget := getSlot_of_norm c idx j hnorm
  rw [hslot] at hget
  simp [requirePointer, DukM_bind_apply, hget, DukM_pure_apply]

theorem getProp_eval_found (c : Ctx) (idx : ℤ) (key : PropKey) (j : ℕ)
    (props : List (PropKey × DukValue)) (w : DukValue)
    (hnorm : normIdx c.stack.length idx = some j)
    (hslot : c.stack.getD j .undefined = .obj props)
    (hlook : props.lookup key = some w) :
    getPropLString idx key c = some (true, { c with stack := c.stack ++ [w] }) := by
  have hget := getSlot_of_norm c idx j hnorm
  rw [hslot] at hget
  simp [getPropLString, DukM_bind_apply, hget, hlook, pushRaw, DukM_pure_apply]

theorem getProp_eval_missing (c : Ctx) (idx : ℤ) (key : PropKey) (j : ℕ)
    (props : List (PropKey × DukValue))
    (hnorm : normIdx c.stack.length idx = some j)
    (hslot : c.stack.getD j .undefined = .obj props)
    (hlook : props.lookup key = none) :
    getPropLString idx key c = some (false, { c with stack := c.stack ++ [.undefined] }) := by
  have hget := getSlot_of_norm c idx j hnorm
  rw [hslot] at hget
  simp [getPropLString, DukM_bind_apply, hget, hlook, pushRaw, DukM_pure_apply]

theorem popIt_concat (c : Ctx) (w : DukValue) :
    popIt { c with stack := c.stack ++ [w] } = some ((), c) := by
  simp [popIt]

theorem pushObject_eval (c : Ctx) :
    pushObject c = some (c.stack.length, { c with stack := c.stack ++ [.obj []] }) := by
  simp [pushObject, DukM_bind_apply, pushRaw, stackTopIdx]

theorem putProp_eval (c : Ctx) (objIdx : ℤ) (key : PropKey) (v : DukValue) (j : ℕ)
    (props : List (PropKey × DukValue))
    (hlast : c.stack.getLast? = some v)
    (hnorm : normIdx c.stack.length objIdx = some j)
    (hslot : c.stack.getD j .undefined = .obj props) :
    putPropLString objIdx key c
      = some ((), { c with stack := (c.stack.set j (.obj (setAssoc props key v))).dropLast }) := by
  simp only [putPropLString, hlast, hnorm, hslot]

theorem lookup_rcIncr (l : List (ℕ × ℕ)) (addr k : ℕ) (h : l.lookup addr = some k) :
    (rcIncr l addr).lookup addr = some (k + 1) := by
  induction l with
  | nil => simp at h
  | cons e r ih =>
    rcases e with ⟨a, m⟩
    by_cases ha : addr = a
    · subst ha
      have hred : rcIncr ((addr, m) :: r) addr = (addr, m + 1) :: rcIncr r addr := by
        simp [rcIncr]
      rw [hred]
      have h2 : m = k := by simpa [List.lookup] using h
      subst h2
      simp [List.lookup]
    · have hb : (addr == a) = false := beq_eq_false_iff_ne.mpr ha
      have hb2 : ¬(a = addr) := fun hh => ha hh.symm
      have hred : rcIncr ((a, m) :: r) addr = (a, m) :: rcIncr r addr := by
        simp only [rcIncr, List.map_cons]
        rw [if_neg hb2]
      rw [hred]
      have hh : List.lookup addr r = some k := by
        simpa [List.lookup, hb] using h
      simpa [List.lookup, hb] using ih hh

theorem lookup_rcDecr (l : List (ℕ × ℕ)) (addr k : ℕ) (h : l.lookup addr = some k) :
    (rcDecr l addr).lookup addr = some (k - 1) := by
  induction l with
  | nil => simp at h
  | cons e r ih =>
    rcases e with ⟨a, m⟩
    by_cases ha : addr = a
    · subst ha
      have hred : rcDecr ((addr, m) :: r) addr = (addr, m - 1) :: rcDecr r addr := by
        simp [rcDecr]
      rw [hred]
      have h2 : m = k := by simpa [List.lookup] using h
      subst h2
      simp [List.lookup]
    · have hb : (addr == a) = false := beq_eq_false_iff_ne.mpr ha
      have hb2 : ¬(a = addr) := fun hh => ha hh.symm
      have hred : rcDecr ((a, m) :: r) addr = (a, m) :: rcDecr r addr := by
        simp only [rcDecr, List.map_cons]
        rw [if_neg hb2]
      rw [hred]
      have hh : List.lookup addr r = some k := by
        simpa [List.lookup, hb] using h
      simpa [List.lookup, hb] using ih hh

theorem wrapper_lookup_type (tyName : String) (addr : ℕ) :
    ([(strBytes "__rc", DukValue.pointer addr),
      (strBytes "__type", DukValue.str tyName)].lookup (strBytes "__type"))
      = some (.str tyName) := by
  have hne : (strBytes "__type" == strBytes "__rc") = false := by decide
  simp [List.lookup, hne]

theorem wrapper_lookup_rc (tyName : String) (addr : ℕ) :
    ([(strBytes "__rc", DukValue.pointer addr),
      (strBytes "__type", DukValue.str tyName)].lookup (strBytes "__rc"))
      = some (.pointer addr) := by
  simp [List.lookup]


theorem peek_rc_wrapper (s : List DukValue) (r : List (ℕ × ℕ)) (tyName : String)
    (addr : ℕ) (copy : Bool) (idx : ℤ)
    (hnorm : normIdx (s.length + 1) idx = some s.length) :
    peek_rc tyName idx copy ⟨s ++ [rcWrapper tyName addr], r⟩
      = some (some addr,
          ⟨s ++ [rcWrapper tyName addr], if copy then rcIncr r addr else r⟩) := by
  have hnorm' : normIdx ((⟨s ++ [rcWrapper tyName addr], r⟩ : Ctx)).stack.length idx
      = some s.length := by
    simpa using hnorm
  have hslot : ((⟨s ++ [rcWrapper tyName addr], r⟩ : Ctx)).stack.getD s.length .undefined
      = DukValue.obj [(strBytes "__rc", .pointer addr), (strBytes "__type", .str tyName)] := by
    simpa [rcWrapper] using getD_concat s (rcWrapper tyName addr) .undefined
  have hro : requireObject idx ⟨s ++ [rcWrapper tyName addr], r⟩
      = some ((), ⟨s ++ [rcWrapper tyName addr], r⟩) :=
    requireObject_eval _ idx s.length _ hnorm' hslot
  have hgp1 : getPropLString idx (strBytes "__type") ⟨s ++ [rcWrapper tyName addr], r⟩
      = some (true, ⟨(s ++ [rcWrapper tyName addr]) ++ [.str tyName], r⟩) :=
    getProp_eval_found _ idx _ s.length _ _ hnorm' hslot (wrapper_lookup_type tyName addr)
  have hnorm1 : normIdx ((⟨(s ++ [rcWrapper tyName addr]) ++ [.str tyName], r⟩ : Ctx)).stack.length (-1)
      = some (s.length + 1) := by
    rw [show ((⟨(s ++ [rcWrapper tyName addr]) ++ [.str tyName], r⟩ : Ctx)).stack.length
        = s.length + 2 by simp]
    rw [normIdx_neg_one _ (by omega)]
    simp
  have hslot1 : ((⟨(s ++ [rcWrapper tyName addr]) ++ [.str tyName], r⟩ : Ctx)).stack.getD
      (s.length + 1) .undefined = DukValue.str tyName := by
    have := getD_concat (s ++ [rcWrapper tyName addr]) (DukValue.str tyName) DukValue.undefined
    simpa using this
  have hrs : requireLString (-1) ⟨(s ++ [rcWrapper tyName addr]) ++ [.str tyName], r⟩
      = some (tyName, ⟨(s ++ [rcWrapper tyName addr]) ++ [.str tyName], r⟩) :=
    requireLString_eval _ (-1) (s.length + 1) tyName hnorm1 hslot1
  have hpop1 : popIt ⟨(s ++ [rcWrapper tyName addr]) ++ [.str tyName], r⟩
      = some ((), ⟨s ++ [rcWrapper tyName addr], r⟩) := by
    simpa using popIt_concat ⟨s ++ [rcWrapper tyName addr], r⟩ (.str tyName)
  have hgp2 : getPropLString idx (strBytes "__rc") ⟨s ++ [rcWrapper tyName addr], r⟩
      = some (true, ⟨(s ++ [rcWrapper tyName addr]) ++ [.pointer addr], r⟩) :=
    getProp_eval_found _ idx _ s.length _ _ hnorm' hslot (wrapper_lookup_rc tyName addr)
  have hnorm2 : normIdx ((⟨(s ++ [rcWrapper tyName addr]) ++ [.pointer addr], r⟩ : Ctx)).stack.length (-1)
      = some (s.length + 1) := by
    rw [show ((⟨(s ++ [rcWrapper tyName addr]) ++ [.pointer addr], r⟩ : Ctx)).stack.length
        = s.length + 2 by simp]
    rw [normIdx_neg_one _ (by omega)]
    simp
  have hslot2 : ((⟨(s ++ [rcWrapper tyName addr]) ++ [.pointer addr], r⟩ : Ctx)).stack.getD
      (s.length + 1) .undefined = DukValue.pointer addr := by
    have := getD_concat (s ++ [rcWrapper tyName addr]) (DukValue.pointer addr) DukValue.undefined
    simpa using this
  have hrp : requirePointer (-1) ⟨(s ++ [rcWrapper tyName addr]) ++ [.pointer addr], r⟩
      = some (addr, ⟨(s ++ [rcWrapper tyName addr]) ++ [.pointer addr], r⟩) :=
    requirePointer_eval _ (-1) (s.length + 1) addr hnorm2 hslot2
  have hpop2 : popIt ⟨(s ++ [rcWrapper tyName addr]) ++ [.pointer addr], r⟩
      = some ((), ⟨s ++ [rcWrapper tyName addr], r⟩) := by
    simpa using popIt_concat ⟨s ++ [rcWrapper tyName addr], r⟩ (.pointer addr)
  simp only [List.append_assoc, List.cons_append, List.nil_append] at hgp1 hrs hpop1 hgp2 hrp hpop2
  cases copy with
  | true =>
    simp [peek_rc, DukM_bind_apply, hro, hgp1, hrs, hpop1, hgp2, hrp, hpop2,
      rcIncrement, DukM_pure_apply]
  | false =>
    simp [peek_rc, DukM_bind_apply, hro, hgp1, hrs, hpop1, hgp2, hrp, hpop2,
      DukM_pure_apply]

theorem setAssoc_rc_type (tyName : String) (addr : ℕ) :
    setAssoc [(strBytes "__rc", DukValue.pointer addr)] (strBytes "__type")
        (DukValue.str tyName)
      = [(strBytes "__rc", DukValue.pointer addr),
         (strBytes "__type", DukValue.str tyName)] := by
  have hne : ¬(strBytes "__rc" = strBytes "__type") := by decide
  simp [setAssoc, hne]

theorem rc_push_to_eval (c : Ctx) (tyName : String) (addr : ℕ) :
    rc_push_to tyName addr c
      = some (c.stack.length, { c with stack := c.stack ++ [rcWrapper tyName addr] }) := by
  have hpo := pushObject_eval c
  have hlast1 : ((c.stack ++ [DukValue.obj []]) ++ [DukValue.pointer addr]).getLast?
      = some (DukValue.pointer addr) := by simp
  have hnorm1 : normIdx ((c.stack ++ [DukValue.obj []]) ++ [DukValue.pointer addr]).length
      (c.stack.length : ℤ) = some c.stack.length := by
    apply normIdx_nat; simp
  have hslot1 : ((c.stack ++ [DukValue.obj []]) ++ [DukValue.pointer addr]).getD
      c.stack.length DukValue.undefined = DukValue.obj [] := by
    have := getD_append_cons c.stack (DukValue.obj []) [DukValue.pointer addr] DukValue.undefined
    simpa using this
  have hput1 := putProp_eval ⟨(c.stack ++ [DukValue.obj []]) ++ [DukValue.pointer addr], c.rc⟩
    (c.stack.length : ℤ) (strBytes "__rc") (DukValue.pointer addr) c.stack.length []
    hlast1 hnorm1 hslot1
  have hset1 : (((c.stack ++ [DukValue.obj []]) ++ [DukValue.pointer addr]).set c.stack.length
      (DukValue.obj (setAssoc [] (strBytes "__rc") (DukValue.pointer addr)))).dropLast
      = c.stack ++ [DukValue.obj [(strBytes "__rc", DukValue.pointer addr)]] := by
    have hs := set_append_cons c.stack (DukValue.obj [])
      (DukValue.obj [(strBytes "__rc", DukValue.pointer addr)]) [DukValue.pointer addr]
    rw [show (c.stack ++ [DukValue.obj []]) ++ [DukValue.pointer addr]
        = c.stack ++ DukValue.obj [] :: [DukValue.pointer addr] by simp]
    rw [show setAssoc [] (strBytes "__rc") (DukValue.pointer addr)
        = [(strBytes "__rc", DukValue.pointer addr)] from rfl]
    rw [hs]
    have := dropLast_two c.stack (DukValue.obj [(strBytes "__rc", DukValue.pointer addr)])
      (DukValue.pointer addr)
    simpa using this
  set obj1 : DukValue := DukValue.obj [(strBytes "__rc", DukValue.pointer addr)] with hobj1
  have hlast2 : ((c.stack ++ [obj1]) ++ [DukValue.str tyName]).getLast?
      = some (DukValue.str tyName) := by simp
  have hnorm2 : normIdx ((c.stack ++ [obj1]) ++ [DukValue.str tyName]).length
      (c.stack.length : ℤ) = some c.stack.length := by
    apply normIdx_nat; simp
  have hslot2 : ((c.stack ++ [obj1]) ++ [DukValue.str tyName]).getD
      c.stack.length DukValue.undefined = obj1 := by
    have := getD_append_cons c.stack obj1 [DukValue.str tyName] DukValue.undefined
    simpa using this
  have hput2 := putProp_eval ⟨(c.stack ++ [obj1]) ++ [DukValue.str tyName], c.rc⟩
    (c.stack.length : ℤ) (strBytes "__type") (DukValue.str tyName) c.stack.length
    [(strBytes "__rc", DukValue.pointer addr)]
    hlast2 hnorm2 (by rw [hslot2, hobj1])
  have hset2 : (((c.stack ++ [obj1]) ++ [DukValue.str tyName]).set c.stack.length
      (DukValue.obj (setAssoc [(strBytes "__rc", DukValue.pointer addr)] (strBytes "__type")
        (DukValue.str tyName)))).dropLast
      = c.stack ++ [rcWrapper tyName addr] := by
    rw [setAssoc_rc_type]
    have hs := set_append_cons c.stack obj1 (rcWrapper tyName addr) [DukValue.str tyName]
    rw [show (c.stack ++ [obj1]) ++ [DukValue.str tyName]
        = c.stack ++ obj1 :: [DukValue.str tyName] by simp]
    rw [show DukValue.obj [(strBytes "__rc", DukValue.pointer addr),
        (strBytes "__type", DukValue.str tyName)] = rcWrapper tyName addr from rfl]
    rw [hs]
    have := dropLast_two c.stack (rcWrapper tyName addr) (DukValue.str tyName)
    simpa using this
  simp only [rc_push_to, DukM_bind_apply, hpo, pushRaw, hput1, hset1, hput2, hset2,
    DukM_pure_apply]

theorem normIdx_lt (len : ℕ) (idx : ℤ) (j : ℕ) (h : normIdx len idx = some j) :
    j < len := by
  unfold normIdx at h
  by_cases h1 : idx < 0
  · rw [if_pos h1] at h
    by_cases h2 : 0 ≤ (len : ℤ) + idx
    · rw [if_pos h2] at h
      injection h with h3
      omega
    · rw [if_neg h2] at h
      cases h
  · rw [if_neg h1] at h
    by_cases h2 : idx < (len : ℤ)
    · rw [if_pos h2] at h
      injection h with h3
      omega
    · rw [if_neg h2] at h
      cases h

/-- C8: reading back an `Rc<T>` fails with `PeekError::Internal` whenever the
stored `"__type"` tag is absent or is a string different from the native
type's identity string, for both the copying `peek_at` and (when the wrapper
is at the stack top) the consuming `pop`; in these cases no pointer is
reconstructed and the context's strong counts are untouched (the resulting
state's `rc` table is exactly the input's). -/
theorem c8_rc_type_tag_guard :
    ∀ (c : Ctx) (idx : ℤ) (j : ℕ) (props : List (PropKey × DukValue)) (tyName : String),
      normIdx c.stack.length idx = some j →
      c.stack.getD j .undefined = .obj props →
      (props.lookup (strBytes "__type") = none →
        rc_peek_at tyName idx c
          = some (.error .internal, { c with stack := c.stack ++ [.undefined] })) ∧
      (∀ t : String, props.lookup (strBytes "__type") = some (.str t) → t ≠ tyName →
        rc_peek_at tyName idx c = some (.error .internal, c)) ∧
      (j + 1 = c.stack.length →
        (props.lookup (strBytes "__type") = none →
          rc_pop tyName c
            = some (.error .internal, { c with stack := c.stack ++ [.undefined] })) ∧
        (∀ t : String, props.lookup (strBytes "__type") = some (.str t) → t ≠ tyName →
          rc_pop tyName c = some (.error .internal, c))) := by
  intro c idx j props tyName hnorm hslot
  have hro : requireObject idx c = some ((), c) :=
    requireObject_eval c idx j props hnorm hslot
  have hlt := normIdx_lt _ _ _ hnorm
  have hnormtop : normIdx c.stack.length (-1) = some (c.stack.length - 1) :=
    normIdx_neg_one _ (by omega)
  refine ⟨?_, ?_, ?_⟩
  · intro hlook
    have hgp : getPropLString idx (strBytes "__type") c
        = some (false, { c with stack := c.stack ++ [.undefined] }) :=
      getProp_eval_missing c idx _ j props hnorm hslot hlook
    simp [rc_peek_at, peek_rc, DukM_bind_apply, hro, hgp, DukM_pure_apply]
  · intro t hlook hne
    have hgp : getPropLString idx (strBytes "__type") c
        = some (true, { c with stack := c.stack ++ [.str t] }) :=
      getProp_eval_found c idx _ j props _ hnorm hslot hlook
    have hnorm1 : normIdx ({ c with stack := c.stack ++ [.str t] } : Ctx).stack.length (-1)
        = some c.stack.length := by
      rw [show ({ c with stack := c.stack ++ [.str t] } : Ctx).stack.length
          = c.stack.length + 1 by simp]
      rw [normIdx_neg_one _ (by omega)]
      simp
    have hslot1 : ({ c with stack := c.stack ++ [.str t] } : Ctx).stack.getD
        c.stack.length .undefined = DukValue.str t := by
      simpa using getD_concat c.stack (DukValue.str t) DukValue.undefined
    have hrs := requireLString_eval _ (-1) c.stack.length t hnorm1 hslot1
    have hpop := popIt_concat c (.str t)
    simp [rc_peek_at, peek_rc, DukM_bind_apply, hro, hgp, hrs, hpop,
      DukM_pure_apply, hne]
  · intro hj
    have hslot_top : c.stack.getD (c.stack.length - 1) .undefined = .obj props := by
      rw [show c.stack.length - 1 = j by omega]
      exact hslot
    have hro2 : requireObject (-1) c = some ((), c) :=
      requireObject_eval c (-1) _ props hnormtop hslot_top
    constructor
    · intro hlook
      have hgp : getPropLString (-1) (strBytes "__type") c
          = some (false, { c with stack := c.stack ++ [.undefined] }) :=
        getProp_eval_missing c (-1) _ _ props hnormtop hslot_top hlook
      simp [rc_pop, peek_rc, DukM_bind_apply, hro2, hgp, DukM_pure_apply]
    · intro t hlook hne
      have hgp : getPropLString (-1) (strBytes "__type") c
          = some (true, { c with stack := c.stack ++ [.str t] }) :=
        getProp_eval_found c (-1) _ _ props _ hnormtop hslot_top hlook
      have hnorm1 : normIdx ({ c with stack := c.stack ++ [.str t] } : Ctx).stack.length (-1)
          = some c.stack.length := by
        rw [show ({ c with stack := c.stack ++ [.str t] } : Ctx).stack.length
            = c.stack.length + 1 by simp]
        rw [normIdx_neg_one _ (by omega)]
        simp
      have hslot1 : ({ c with stack := c.stack ++ [.str t] } : Ctx).stack.getD
          c.stack.length .undefined = DukValue.str t := by
        simpa using getD_concat c.stack (DukValue.str t) DukValue.undefined
      have hrs := requireLString_eval _ (-1) c.stack.length t hnorm1 hslot1
      have hpop := popIt_concat c (.str t)
      simp [rc_pop, peek_rc, DukM_bind_apply, hro2, hgp, hrs, hpop,
        DukM_pure_apply, hne]

/-- Witness for C8: a wrapper object with no `"__type"` property, and one
whose tag reads `"U"` when `"T"` is expected, both fail with
`PeekError::Internal`. -/
theorem c8_rc_type_tag_guard_witness :
    rc_peek_at "T" 0 ⟨[.obj []], []⟩
      = some (.error .internal, ⟨[.obj [], .undefined], []⟩) ∧
    rc_peek_at "T" 0 ⟨[.obj [(strBytes "__type", .str "U")]], []⟩
      = some (.error .internal, ⟨[.obj [(strBytes "__type", .str "U")]], []⟩) := by
  constructor
  · exact ((c8_rc_type_tag_guard ⟨[.obj []], []⟩ 0 0 [] "T" (by decide) rfl).1) rfl
  · exact ((c8_rc_type_tag_guard ⟨[.obj [(strBytes "__type", .str "U")]], []⟩ 0 0
      [(strBytes "__type", .str "U")] "T" (by decide) rfl).2.1) "U" rfl
      (by decide)

/-- C2: for a shared allocation with strong count `n` (one of those `n`
references being the native handle about to be pushed), the cycle behaves
exactly as documented: `push_to` transfers ownership into the engine wrapper
without touching the count; `peek_at` returns the handle and increments the
count by exactly one; `pop` returns the handle, consumes the stack slot, and
leaves the count unchanged; dropping the peek-derived handle restores `n` —
the count never under- or over-shoots. -/
theorem c2_rc_count_discipline :
    ∀ (c : Ctx) (tyName : String) (addr n : ℕ),
      c.rc.lookup addr = some n →
      ∃ c1 c2 c3 : Ctx,
        rc_push_to tyName addr c = some (c.stack.length, c1) ∧
        c1.stack = c.stack ++ [rcWrapper tyName addr] ∧ rcCount c1 addr = n ∧
        rc_peek_at tyName (c.stack.length : ℤ) c1 = some (.ok addr, c2) ∧
        c2.stack = c1.stack ∧ rcCount c2 addr = n + 1 ∧
        rc_pop tyName c2 = some (.ok addr, c3) ∧
        c3.stack = c.stack ∧ rcCount c3 addr = n + 1 ∧
        rcCount (rcDrop c3 addr) addr = n := by
  intro c tyName addr n hlook
  have hincr := lookup_rcIncr c.rc addr n hlook
  refine ⟨{ c with stack := c.stack ++ [rcWrapper tyName addr] },
          ⟨c.stack ++ [rcWrapper tyName addr], rcIncr c.rc addr⟩,
          ⟨c.stack, rcIncr c.rc addr⟩, rc_push_to_eval c tyName addr, rfl, ?_, ?_, rfl,
          ?_, ?_, rfl, ?_, ?_⟩
  · simp [rcCount, hlook]
  · have hplift := peek_rc_wrapper c.stack c.rc tyName addr true (c.stack.length : ℤ)
      (normIdx_nat _ _ (by omega))
    simp [rc_peek_at, DukM_bind_apply, hplift, DukM_pure_apply]
  · simp [rcCount, hincr]
  · have hn1 : normIdx (c.stack.length + 1) (-1) = some c.stack.length := by
      rw [normIdx_neg_one _ (by omega)]
      simp
    have hplift := peek_rc_wrapper c.stack (rcIncr c.rc addr) tyName addr false (-1) hn1
    have hpop := popIt_concat ⟨c.stack, rcIncr c.rc addr⟩ (rcWrapper tyName addr)
    simp [rc_pop, DukM_bind_apply, hplift, hpop, DukM_pure_apply]
  · simp [rcCount, hincr]
  · simp [rcCount, rcDrop, lookup_rcDecr (rcIncr c.rc addr) addr (n + 1) hincr]

/-- Witness for C2 at a concrete allocation (address 17, strong count 1). -/
theorem c2_rc_count_discipline_witness :
    ∃ c1 c2 c3 : Ctx,
      rc_push_to "T" 17 ⟨[], [(17, 1)]⟩ = some (0, c1) ∧
      c1.stack = [rcWrapper "T" 17] ∧ rcCount c1 17 = 1 ∧
      rc_peek_at "T" 0 c1 = some (.ok 17, c2) ∧
      c2.stack = c1.stack ∧ rcCount c2 17 = 2 ∧
      rc_pop "T" c2 = some (.ok 17, c3) ∧
      c3.stack = [] ∧ rcCount c3 17 = 2 ∧
      rcCount (rcDrop c3 17) 17 = 1 := by
  have h := c2_rc_count_discipline ⟨[], [(17, 1)]⟩ "T" 17 1 (by decide)
  simpa using h


theorem char_toNat_lt (ch : Char) : ch.toNat < 1114112 := by
  have h := ch.valid
  unfold UInt32.isValidChar Nat.isValidChar at h
  rcases h with h | h
  · exact Nat.lt_trans h (by norm_num)
  · exact h.2

theorem utf8Bytes_head (cp : ℕ) (h : cp < 1114112) :
    ∃ b tl, utf8Bytes cp = b :: tl ∧ b < 255 := by
  unfold utf8Bytes
  by_cases h1 : cp < 0x80
  · rw [if_pos h1]
    exact ⟨cp, _, rfl, by omega⟩
  · rw [if_neg h1]
    by_cases h2 : cp < 0x800
    · rw [if_pos h2]
      refine ⟨_, _, rfl, ?_⟩
      have hd : cp / 0x40 < 32 := Nat.div_lt_of_lt_mul (by omega)
      omega
    · rw [if_neg h2]
      by_cases h3 : cp < 0x10000
      · rw [if_pos h3]
        refine ⟨_, _, rfl, ?_⟩
        have hd : cp / 0x1000 < 16 := Nat.div_lt_of_lt_mul (by omega)
        omega
      · rw [if_neg h3]
        refine ⟨_, _, rfl, ?_⟩
        have hd : cp / 0x40000 < 5 := Nat.div_lt_of_lt_mul (by omega)
        omega

theorem hidden_key_ne_strBytes (l : List ℕ) (t : String) :
    (0xff : ℕ) :: l ≠ strBytes t := by
  intro h
  unfold strBytes at h
  cases ht : t.data with
  | nil => rw [ht] at h; simp at h
  | cons ch rest =>
    rw [ht] at h
    obtain ⟨b, tl, hb1, hb2⟩ := utf8Bytes_head ch.toNat (char_toNat_lt ch)
    rw [List.map_cons, List.flatten_cons, hb1] at h
    have : (0xff : ℕ) = b := by
      have := List.head_eq_of_cons_eq h
      exact this
    omega

theorem lookup_isSome_mem (l : List (PropKey × DukValue)) (k : PropKey)
    (h : (l.lookup k).isSome) : k ∈ l.map Prod.fst := by
  induction l with
  | nil => simp [List.lookup] at h
  | cons e rest ih =>
    rcases e with ⟨k', w⟩
    by_cases hk : k = k'
    · simp [hk]
    · have hb : (k == k') = false := beq_eq_false_iff_ne.mpr hk
      simp only [List.lookup, hb] at h
      simpa using Or.inr (ih h)

theorem setAssoc_keys (props : List (PropKey × DukValue)) (key : PropKey) (v : DukValue)
    (k : PropKey) (hk : k ∈ (setAssoc props key v).map Prod.fst) :
    k = key ∨ k ∈ props.map Prod.fst := by
  induction props with
  | nil =>
    simp [setAssoc] at hk
    exact Or.inl hk
  | cons e rest ih =>
    rcases e with ⟨k', w⟩
    by_cases he : k' = key
    · rw [setAssoc, if_pos he] at hk
      simp at hk
      rcases hk with h | h
      · exact Or.inl h
      · exact Or.inr (by simp [h])
    · rw [setAssoc, if_neg he] at hk
      simp at hk
      rcases hk with h | h
      · exact Or.inr (by simp [h])
      · rcases ih (by simpa using h) with h2 | h2
        · exact Or.inl h2
        · exact Or.inr (by simp [h2])

theorem deriveProps_keys (fields : List (String × Bool × DukValue))
    (init : List (PropKey × DukValue)) (k : PropKey)
    (hk : k ∈ ((fields.foldl (fun ps f => setAssoc ps (prop_name f.1 f.2.1) f.2.2)
        init).map Prod.fst)) :
    k ∈ init.map Prod.fst ∨ ∃ f ∈ fields, k = prop_name f.1 f.2.1 := by
  induction fields generalizing init with
  | nil =>
    simp only [List.foldl_nil] at hk
    exact Or.inl hk
  | cons f rest ih =>
    simp only [List.foldl_cons] at hk
    rcases ih _ hk with h | h
    · rcases setAssoc_keys init _ _ k h with h2 | h2
      · exact Or.inr ⟨f, by simp, h2⟩
      · exact Or.inl h2
    · rcases h with ⟨g, hg, hk2⟩
      exact Or.inr ⟨g, by simp [hg], hk2⟩

theorem putProp_push_step (c : Ctx) (props : List (PropKey × DukValue))
    (w : DukValue) (key : PropKey) :
    putPropLString (c.stack.length : ℤ) key
      { c with stack := (c.stack ++ [.obj props]) ++ [w] }
      = some ((), { c with stack := c.stack ++ [.obj (setAssoc props key w)] }) := by
  have hlast : ((c.stack ++ [DukValue.obj props]) ++ [w]).getLast? = some w := by simp
  have hnorm : normIdx ((c.stack ++ [DukValue.obj props]) ++ [w]).length
      (c.stack.length : ℤ) = some c.stack.length := by
    apply normIdx_nat
    simp
  have hslot : ((c.stack ++ [DukValue.obj props]) ++ [w]).getD c.stack.length .undefined
      = DukValue.obj props := by
    simpa using getD_append_cons c.stack (DukValue.obj props) [w] DukValue.undefined
  have h := putProp_eval ⟨(c.stack ++ [DukValue.obj props]) ++ [w], c.rc⟩
    (c.stack.length : ℤ) key w c.stack.length props hlast hnorm hslot
  have hset : (((c.stack ++ [DukValue.obj props]) ++ [w]).set c.stack.length
      (DukValue.obj (setAssoc props key w))).dropLast
      = c.stack ++ [DukValue.obj (setAssoc props key w)] := by
    rw [show (c.stack ++ [DukValue.obj props]) ++ [w]
        = c.stack ++ DukValue.obj props :: [w] by simp]
    rw [set_append_cons]
    exact dropLast_two c.stack (DukValue.obj (setAssoc props key w)) w
  rw [show ({ c with stack := (c.stack ++ [DukValue.obj props]) ++ [w] } : Ctx)
      = ⟨(c.stack ++ [DukValue.obj props]) ++ [w], c.rc⟩ from rfl]
  rw [h, hset]

theorem forM_cons_apply (f : α → DukM PUnit) (a : α) (l : List α) (c : Ctx) :
    (a :: l).forM f c = match f a c with
      | none => none
      | some (_, c') => l.forM f c' := by
  show (f a >>= fun _ => l.forM f) c = _
  rw [DukM_bind_apply]
  cases hfa : f a c with
  | none => simp [hfa]
  | some p =>
    rcases p with ⟨u, c2⟩
    simp [hfa]

theorem derive_loop (fields : List (String × Bool × DukValue)) (c : Ctx)
    (props : List (PropKey × DukValue)) :
    (fields.forM (fun f => do
        pushRaw f.2.2
        putPropLString (c.stack.length : ℤ) (prop_name f.1 f.2.1)))
      { c with stack := c.stack ++ [DukValue.obj props] }
      = some ((), { c with stack := c.stack ++
          [DukValue.obj (fields.foldl
            (fun ps f => setAssoc ps (prop_name f.1 f.2.1) f.2.2) props)] }) := by
  induction fields generalizing props with
  | nil => rfl
  | cons f rest ih =>
    rcases f with ⟨name, hid, v⟩
    have hstep := putProp_push_step c props v (prop_name name hid)
    simp only [forM_cons_apply, DukM_bind_apply, pushRaw, hstep, List.foldl_cons]
    exact ih (setAssoc props (prop_name name hid) v)

theorem derive_push_to_eval (fields : List (String × Bool × DukValue)) (c : Ctx) :
    derive_push_to fields c
      = some (c.stack.length,
          { c with stack := c.stack ++ [.obj (deriveProps fields)] }) := by
  have hloop := derive_loop fields c []
  simp only [derive_push_to, DukM_bind_apply, pushObject_eval, hloop, DukM_pure_apply,
    deriveProps]

/-- C9: a hidden field is stored under the property key `0xFF` followed by
the field name's UTF-8 bytes, an ordinary field under its plain name bytes;
the derived `push_to` produces exactly the object whose property table binds
each field under `prop_name`; and, since no UTF-8 string starts with the
byte `0xFF`, a hidden key differs from the byte encoding of every string,
so any plain string-keyed lookup that succeeds on the produced object can
only have found a non-hidden field. -/
theorem c9_hidden_field_keys :
    ∀ (name t : String) (fields : List (String × Bool × DukValue)) (c : Ctx),
      prop_name name true = 0xff :: strBytes name ∧
      prop_name name false = strBytes name ∧
      prop_name name true ≠ strBytes t ∧
      derive_push_to fields c
        = some (c.stack.length,
            { c with stack := c.stack ++ [.obj (deriveProps fields)] }) ∧
      (((deriveProps fields).lookup (strBytes t)).isSome →
        ∃ f ∈ fields, f.2.1 = false ∧ prop_name f.1 f.2.1 = strBytes t) := by
  intro name t fields c
  refine ⟨rfl, rfl, ?_, derive_push_to_eval fields c, ?_⟩
  · rw [show prop_name name true = 0xff :: strBytes name from rfl]
    exact hidden_key_ne_strBytes (strBytes name) t
  · intro hsome
    have hmem := lookup_isSome_mem _ _ hsome
    rcases deriveProps_keys fields [] _ hmem with h | h
    · simp at h
    · rcases h with ⟨f, hf, hk⟩
      refine ⟨f, hf, ?_, hk.symm⟩
      by_contra hhid
      have hhid' : f.2.1 = true := by
        cases hb : f.2.1
        · exact absurd hb hhid
        · rfl
      rw [hhid'] at hk
      exact hidden_key_ne_strBytes (strBytes f.1) t (by simpa [prop_name] using hk.symm)

/-- Witness for C9: on a record with a hidden field `secret` and a plain
field `x`, a successful lookup under the plain string key `"x"` identifies
the non-hidden field. -/
theorem c9_hidden_field_keys_witness :
    ∃ f ∈ [("secret", true, DukValue.num 1), ("x", false, DukValue.num 2)],
      f.2.1 = false ∧ prop_name f.1 f.2.1 = strBytes "x" :=
  (c9_hidden_field_keys "secret" "x"
    [("secret", true, DukValue.num 1), ("x", false, DukValue.num 2)]
    ⟨[], []⟩).2.2.2.2 (by decide)


/-- C5: every attempt to encode or decode an `i64`/`u64` through the
serializer bridge returns the "unsupported" error value (`Error::Message
"not implemented"`) — a reportable error, not an engine throw or panic —
for every input value, stack index and context. -/
theorem c5_i64_u64_unsupported :
    ∀ (c : Ctx) (v : ℤ) (w : ℕ) (idx : ℤ),
      serialize_i64 v c = some (.error (SerError.message "not implemented"), c) ∧
      serialize_u64 w c = some (.error (SerError.message "not implemented"), c) ∧
      deserialize_i64 idx c = some (.error (SerError.message "not implemented"), c) ∧
      deserialize_u64 idx c = some (.error (SerError.message "not implemented"), c) := by
  intro c v w idx
  refine ⟨rfl, rfl, rfl, rfl⟩

end Dukt
